import Mathlib

/-!
Verification of the analytics aggregation slice of a marketing backend.

The embedding covers:
* the analytics document schema (models/analytics.model.js);
* the integration schema (models/integration.model.js), as far as the
  required-identifier check of getIntegrations needs it;
* the four service functions of services/analytics.service.js
  (getOverview, getCampaignAnalytics, getChannelAnalytics,
  getRecommendations) together with getIntegrations from the
  integration service;
* the response dispatch of controllers/analytics.controller.js.

Document-store conventions are embedded as follows: a collection is a
list of records, a find call filters that list, a sort call sorts it,
an aggregate pipeline of match and group stages filters and then folds
the sums of one group, and none of these calls changes the store.
Numbers are embedded exactly: counters as Nat, monetary cost and the
computed cost-per-click as Rat; dates as Int timestamps, already parsed
from the query strings.  A JavaScript string parameter that may be
undefined is embedded as Option String, and the falsiness test on it
holds for the missing value and for the empty string.
-/

namespace AutoMarketing

/-- One analytics document: metrics of one campaign on one channel for
one date, from models/analytics.model.js.  The company reference is
optional in the schema; createdAt and updatedAt play no role in any
aggregation and are omitted. -/
structure AnalyticsRecord where
  campaignId : String
  companyId : Option String
  date : Int
  channel : String
  impressions : Nat
  clicks : Nat
  conversions : Nat
  cost : Rat
deriving DecidableEq

/-- One integration document, reduced to the fields getIntegrations
reads, from models/integration.model.js. -/
structure IntegrationRecord where
  companyId : String
  platform : String
deriving DecidableEq

/-- The document store: the analytics collection and the integration
collection. -/
structure Store where
  records : List AnalyticsRecord
  integrations : List IntegrationRecord
deriving DecidableEq

/-- JavaScript falsiness test on an optional string parameter: a value
is truthy when it is present and not the empty string. -/
def truthy : Option String → Bool
  | none => false
  | some s => !s.isEmpty

/-- A query object as the service functions build it: an optional
equality constraint on companyId, an optional equality constraint on
campaignId, and an optional inclusive date range (the gte and lte
bounds set together, as the code only sets them together). -/
structure MongoQuery where
  companyId : Option String
  campaignId : Option String
  dateRange : Option (Int × Int)

/-- The date-range guard the three filtered service functions share:
the range constraint is built exactly when both bounds are present,
matching the source guard that requires start and end together. -/
def rangeOf : Option Int → Option Int → Option (Int × Int)
  | some a, some b => some (a, b)
  | _, _ => none

/-- Claim-side date test: a date lies within the inclusive range when
both bounds are given; with fewer than two bounds every date is
accepted. -/
def inRange : Option Int → Option Int → Int → Bool
  | some a, some b, d => decide (a ≤ d) && decide (d ≤ b)
  | _, _, _ => true

/-- Match semantics of a query against one analytics document: each
constraint present must hold; an equality constraint on companyId only
matches documents that carry that company reference. -/
def matchesQuery (q : MongoQuery) (r : AnalyticsRecord) : Bool :=
  (match q.companyId with
    | none => true
    | some c => r.companyId == some c)
  && (match q.campaignId with
    | none => true
    | some c => r.campaignId == c)
  && (match q.dateRange with
    | none => true
    | some (a, b) => decide (a ≤ r.date) && decide (r.date ≤ b))

/-- A find call on the analytics collection: returns the matching
documents in collection order and leaves the store unchanged. -/
def dbFind (q : MongoQuery) (s : Store) : List AnalyticsRecord × Store :=
  (s.records.filter (matchesQuery q), s)

/-- Ascending-by-date comparison used by the sort call of
getCampaignAnalytics. -/
def dateLe (r₁ r₂ : AnalyticsRecord) : Prop := r₁.date ≤ r₂.date

/-- Descending-by-date comparison used by the sort call of
getRecommendations. -/
def dateGe (r₁ r₂ : AnalyticsRecord) : Prop := r₂.date ≤ r₁.date

instance : DecidableRel dateLe := fun r₁ r₂ => Int.decLe r₁.date r₂.date

instance : DecidableRel dateGe := fun r₁ r₂ => Int.decLe r₂.date r₁.date

instance : IsTotal AnalyticsRecord dateLe := ⟨fun r₁ r₂ => Int.le_total r₁.date r₂.date⟩

instance : IsTrans AnalyticsRecord dateLe := ⟨fun _ _ _ h₁ h₂ => le_trans h₁ h₂⟩

instance : IsTotal AnalyticsRecord dateGe := ⟨fun r₁ r₂ => Int.le_total r₂.date r₁.date⟩

instance : IsTrans AnalyticsRecord dateGe := ⟨fun _ _ _ h₁ h₂ => le_trans h₂ h₁⟩

/-- The totals object of the group stage shared by getOverview and
getChannelAnalytics: the four sum accumulators. -/
structure Totals where
  impressions : Nat
  clicks : Nat
  conversions : Nat
  cost : Rat
deriving DecidableEq

/-- One accumulation step of the group stage: add the four metric
fields of one document to the running sums. -/
def accRecord (acc : Totals) (r : AnalyticsRecord) : Totals :=
  { impressions := acc.impressions + r.impressions
    clicks := acc.clicks + r.clicks
    conversions := acc.conversions + r.conversions
    cost := acc.cost + r.cost }

/-- The group stage over one group of documents: fold the four sum
accumulators starting from zero. -/
def groupTotals (rs : List AnalyticsRecord) : Totals :=
  rs.foldl accRecord ⟨0, 0, 0, 0⟩

/-- Parameters of getOverview; the field stop embeds the query
parameter named end in the source, which is a reserved word here. -/
structure OverviewParams where
  companyId : Option String
  start : Option Int
  stop : Option Int

/-- Embeds getOverview of services/analytics.service.js: build the
query (companyId only when truthy, the date range only when both
bounds are present), run the match-and-group pipeline, and return the
totals, all four zero when the pipeline yields no row. -/
def getOverview (params : OverviewParams) (s : Store) :
    Except String Totals × Store :=
  let query : MongoQuery :=
    { companyId := if truthy params.companyId then params.companyId else none
      campaignId := none
      dateRange := rangeOf params.start params.stop }
  let (matched, s) := dbFind query s
  let aggregation : List Totals :=
    if matched.isEmpty then [] else [groupTotals matched]
  match aggregation with
  | [] => (Except.ok ⟨0, 0, 0, 0⟩, s)
  | t :: _ => (Except.ok t, s)

/-- Parameters of getCampaignAnalytics. -/
structure CampaignParams where
  campaignId : Option String
  start : Option Int
  stop : Option Int

/-- Embeds getCampaignAnalytics of services/analytics.service.js: a
falsy campaign identifier yields null (embedded as none) rather than
an error; otherwise find the documents of that campaign, restricted to
the date range when both bounds are present, sorted ascending by
date. -/
def getCampaignAnalytics (params : CampaignParams) (s : Store) :
    Except String (Option (List AnalyticsRecord)) × Store :=
  if !truthy params.campaignId then (Except.ok none, s)
  else
    let query : MongoQuery :=
      { companyId := none
        campaignId := params.campaignId
        dateRange := rangeOf params.start params.stop }
    let (matched, s) := dbFind query s
    (Except.ok (some (List.insertionSort dateLe matched)), s)

/-- Parameters of getChannelAnalytics. -/
structure ChannelParams where
  companyId : Option String
  campaignId : Option String
  start : Option Int
  stop : Option Int

/-- One output row of the channel breakdown, after the project stage
flattens the group totals next to the channel name. -/
structure ChannelRow where
  channel : String
  impressions : Nat
  clicks : Nat
  conversions : Nat
  cost : Rat
deriving DecidableEq

/-- Builds one channel row from the group of documents of that
channel. -/
def channelRowOf (c : String) (rs : List AnalyticsRecord) : ChannelRow :=
  let t := groupTotals rs
  { channel := c
    impressions := t.impressions
    clicks := t.clicks
    conversions := t.conversions
    cost := t.cost }

/-- Embeds getChannelAnalytics of services/analytics.service.js: build
the query from the truthy filters, then group the matching documents
by channel, one row of sums per distinct channel value observed. -/
def getChannelAnalytics (params : ChannelParams) (s : Store) :
    Except String (List ChannelRow) × Store :=
  let query : MongoQuery :=
    { companyId := if truthy params.companyId then params.companyId else none
      campaignId := if truthy params.campaignId then params.campaignId else none
      dateRange := rangeOf params.start params.stop }
  let (matched, s) := dbFind query s
  let keys := (matched.map AnalyticsRecord.channel).dedup
  (Except.ok
    (keys.map fun c => channelRowOf c (matched.filter fun r => r.channel == c)), s)

/-- First generic recommendation string of getRecommendations. -/
def genericRec1 : String := "Consider shifting budget to high-conversion channels."

/-- Second generic recommendation string of getRecommendations. -/
def genericRec2 : String := "Explore retargeting if conversions are below target."

/-- The no-data recommendation string of getRecommendations. -/
def noDataRec : String := "No recent analytics data available for this campaign."

/-- Renders a nonnegative integer count of hundredths as a decimal
numeral with exactly two fraction digits. -/
def renderHundredths (n : Nat) : String :=
  toString (n / 100) ++ "." ++
    (if n % 100 < 10 then "0" ++ toString (n % 100) else toString (n % 100))

/-- Embeds the toFixed call with two fraction digits on a number:
round to the nearest hundredth, halves away from zero, and render with
exactly two fraction digits.  The double-precision artifacts of the
JavaScript value are not modelled; on the exact rational they agree
away from representation-error ties. -/
def toFixed2 (q : Rat) : String :=
  if q < 0 then "-" ++ renderHundredths (Rat.floor (-q * 100 + 1 / 2)).toNat
  else renderHundredths (Rat.floor (q * 100 + 1 / 2)).toNat

/-- The high-CPC recommendation template of getRecommendations,
embedding the campaign identifier and the formatted average CPC; the
template literal spans two source lines, hence the embedded line
break. -/
def highCpcMsg (campaignId : String) (cpc : Rat) : String :=
  "Campaign " ++ campaignId ++ " has a high average CPC of $" ++ toFixed2 cpc ++
    ". \n       Consider refining keywords or targeting to reduce costs."

/-- The performing-well recommendation template of getRecommendations,
embedding the campaign identifier and the formatted average CPC. -/
def goodCpcMsg (campaignId : String) (cpc : Rat) : String :=
  "Campaign " ++ campaignId ++ " is performing well with an average CPC of $" ++
    toFixed2 cpc ++ ". \n       Consider increasing budget or expanding audience."

/-- Per-record cost per click as the source computes it: cost divided
by clicks, with a zero clicks value replaced by 1 through the
JavaScript or-with-1 idiom. -/
def perRecordCPC (r : AnalyticsRecord) : Rat :=
  r.cost / (if r.clicks == 0 then (1 : Rat) else (r.clicks : Rat))

/-- Embeds getRecommendations of services/analytics.service.js: with a
falsy campaign identifier, two fixed generic strings; otherwise fetch
the documents of the campaign sorted descending by date, keep at most
7, answer the fixed no-data string when none exist, and otherwise
branch on whether the unweighted mean of per-record CPC strictly
exceeds 2. -/
def getRecommendations (campaignId : Option String) (s : Store) :
    Except String (List String) × Store :=
  if !truthy campaignId then
    (Except.ok [genericRec1, genericRec2], s)
  else
    let query : MongoQuery :=
      { companyId := none, campaignId := campaignId, dateRange := none }
    let (matched, s) := dbFind query s
    let recentData := (List.insertionSort dateGe matched).take 7
    if recentData.isEmpty then (Except.ok [noDataRec], s)
    else
      let cid := campaignId.getD ("")
      let averageCPC :=
        (recentData.foldl (fun acc r => acc + perRecordCPC r) 0) /
          (recentData.length : Rat)
      if 2 < averageCPC then (Except.ok [highCpcMsg cid averageCPC], s)
      else (Except.ok [goodCpcMsg cid averageCPC], s)

/-- The error message thrown by getIntegrations on a missing company
identifier. -/
def integrationsErrMsg : String := "companyId is required to retrieve integrations."

/-- Embeds getIntegrations of services/auth.service.js: throws when the
company identifier is falsy, otherwise finds the integration documents
of that company. -/
def getIntegrations (companyId : Option String) (s : Store) :
    Except String (List IntegrationRecord) × Store :=
  if !truthy companyId then (Except.error integrationsErrMsg, s)
  else
    (Except.ok (s.integrations.filter fun i => companyId == some i.companyId), s)

/-- An HTTP JSON response as the controllers build it: status code,
success flag, optional data payload, optional message. -/
structure ApiResponse (α : Type) where
  status : Nat
  success : Bool
  data : Option α
  message : Option String
deriving DecidableEq

/-- The 500 message of the overview endpoint. -/
def overviewFailMsg : String := "Failed to retrieve analytics overview."

/-- The 500 message of the campaign-series endpoint. -/
def campaignFailMsg : String := "Failed to retrieve campaign analytics."

/-- The 404 message of the campaign-series endpoint. -/
def campaignNotFoundMsg (campaignId : String) : String :=
  "No analytics found for campaign ID: " ++ campaignId

/-- The 500 message of the channel-breakdown endpoint. -/
def channelFailMsg : String := "Failed to retrieve channel analytics."

/-- The 500 message of the recommendations endpoint. -/
def recsFailMsg : String := "Failed to retrieve analytics recommendations."

/-- Embeds the overview handler of controllers/analytics.controller.js
as a function of the service call outcome: 200 with the data on
success, 500 with success false and a message when the awaited call
threw. -/
def ctrlGetOverview (outcome : Except String Totals) : ApiResponse Totals :=
  match outcome with
  | Except.ok d => ⟨200, true, some d, none⟩
  | Except.error _ => ⟨500, false, none, some overviewFailMsg⟩

/-- Embeds the campaign handler of controllers/analytics.controller.js:
500 when the service call threw, 404 with success false when the
service returned a falsy value (null, embedded as none; an empty list
is truthy and is served with 200), 200 with the data otherwise. -/
def ctrlGetCampaignAnalytics (campaignId : String)
    (outcome : Except String (Option (List AnalyticsRecord))) :
    ApiResponse (List AnalyticsRecord) :=
  match outcome with
  | Except.error _ => ⟨500, false, none, some campaignFailMsg⟩
  | Except.ok none => ⟨404, false, none, some (campaignNotFoundMsg campaignId)⟩
  | Except.ok (some d) => ⟨200, true, some d, none⟩

/-- Embeds the channels handler of controllers/analytics.controller.js:
200 with the data on success, 500 with success false and a message
when the awaited call threw. -/
def ctrlGetChannelAnalytics (outcome : Except String (List ChannelRow)) :
    ApiResponse (List ChannelRow) :=
  match outcome with
  | Except.ok d => ⟨200, true, some d, none⟩
  | Except.error _ => ⟨500, false, none, some channelFailMsg⟩

/-- Embeds the recommendations handler of
controllers/analytics.controller.js: 200 with the data on success, 500
with success false and a message when the awaited call threw. -/
def ctrlGetRecommendations (outcome : Except String (List String)) :
    ApiResponse (List String) :=
  match outcome with
  | Except.ok d => ⟨200, true, some d, none⟩
  | Except.error _ => ⟨500, false, none, some recsFailMsg⟩

/-! Helper lemmas about the group stage and sums over groups. -/

/-- Folding the accumulation step over a list adds the field sums to
the starting accumulator. -/
lemma foldl_accRecord (rs : List AnalyticsRecord) : ∀ acc : Totals,
    rs.foldl accRecord acc =
      ⟨acc.impressions + (rs.map AnalyticsRecord.impressions).sum,
       acc.clicks + (rs.map AnalyticsRecord.clicks).sum,
       acc.conversions + (rs.map AnalyticsRecord.conversions).sum,
       acc.cost + (rs.map AnalyticsRecord.cost).sum⟩ := by
  induction rs with
  | nil => intro acc; cases acc; simp
  | cons r rs ih =>
    intro acc
    rw [List.foldl_cons, ih]
    cases acc
    simp [accRecord, add_assoc]

/-- The group stage computes the four field sums of its group. -/
lemma groupTotals_eq (rs : List AnalyticsRecord) :
    groupTotals rs =
      ⟨(rs.map AnalyticsRecord.impressions).sum,
       (rs.map AnalyticsRecord.clicks).sum,
       (rs.map AnalyticsRecord.conversions).sum,
       (rs.map AnalyticsRecord.cost).sum⟩ := by
  rw [groupTotals, foldl_accRecord]
  simp

/-- Splitting a sum over a list into the part satisfying a predicate
and the part violating it. -/
lemma sum_filter_not_add {α M : Type} [AddCommMonoid M] (p : α → Bool) (f : α → M)
    (l : List α) :
    ((l.filter p).map f).sum + ((l.filter fun x => !p x).map f).sum = (l.map f).sum := by
  induction l with
  | nil => simp
  | cons x xs ih =>
    cases h : p x <;>
      simp [List.filter_cons, h, ← ih, add_assoc, add_left_comm]

/-- Summing fiber sums over a duplicate-free list of keys covering all
key values of a list equals the total sum over the list. -/
lemma sum_fiberwise {α κ M : Type} [DecidableEq κ] [AddCommMonoid M]
    (k : α → κ) (f : α → M) :
    ∀ (keys : List κ) (l : List α), keys.Nodup → (∀ x ∈ l, k x ∈ keys) →
      (keys.map fun c => ((l.filter fun x => k x == c).map f).sum).sum = (l.map f).sum := by
  intro keys
  induction keys with
  | nil =>
    intro l _ hcov
    cases l with
    | nil => simp
    | cons x xs => exact absurd (hcov x (List.mem_cons_self x xs)) (List.not_mem_nil _)
  | cons c cs ih =>
    intro l hnd hcov
    have hc : c ∉ cs := (List.nodup_cons.mp hnd).1
    have hcs : cs.Nodup := (List.nodup_cons.mp hnd).2
    have hsub : ∀ c' ∈ cs,
        ((l.filter fun x => !(k x == c)).filter fun x => k x == c') =
          l.filter fun x => k x == c' := by
      intro c' hc'
      have hne : c' ≠ c := fun h => hc (h ▸ hc')
      rw [List.filter_filter]
      refine List.filter_congr fun x _ => ?_
      cases hx : k x == c' with
      | false => simp [hx]
      | true =>
        have hkx : k x = c' := by simpa using hx
        simp [hx, hkx, hne]
    have htail :
        (cs.map fun c' => ((l.filter fun x => k x == c').map f).sum) =
          cs.map fun c' =>
            (((l.filter fun x => !(k x == c)).filter fun x => k x == c').map f).sum := by
      refine List.map_congr_left fun c' hc' => ?_
      rw [hsub c' hc']
    have hcov' : ∀ x ∈ l.filter fun x => !(k x == c), k x ∈ cs := by
      intro x hx
      obtain ⟨hxl, hxne⟩ := List.mem_filter.mp hx
      have := hcov x hxl
      rcases List.mem_cons.mp this with h | h
      · exfalso
        rw [h] at hxne
        simp at hxne
      · exact h
    rw [List.map_cons, List.sum_cons, htail,
      ih (l.filter fun x => !(k x == c)) hcs hcov',
      sum_filter_not_add (fun x => k x == c) f l]

/-! Claim-side definitions, written from the wording of the spec. -/

/-- Filter predicate following the spec wording: the company reference
must equal the given company when one is given, and the date must lie
within the inclusive range when one is given. -/
def specMatches (cid : Option String) (range : Option (Int × Int))
    (r : AnalyticsRecord) : Bool :=
  (match cid with
    | none => true
    | some c => r.companyId == some c)
  && (match range with
    | none => true
    | some (a, b) => decide (a ≤ r.date) && decide (r.date ≤ b))

/-- The query getOverview builds matches a record exactly when the
spec-side filter does, provided the company parameter is canonical
(absent, or present and nonempty). -/
lemma overviewQuery_matches (cid : Option String) (range : Option (Int × Int))
    (hc : truthy cid = cid.isSome) (r : AnalyticsRecord) :
    matchesQuery
      ⟨if truthy cid then cid else none, none,
        rangeOf (range.map Prod.fst) (range.map Prod.snd)⟩ r
      = specMatches cid range r := by
  have hrange : rangeOf (range.map Prod.fst) (range.map Prod.snd) = range := by
    cases range with
    | none => rfl
    | some p => cases p; rfl
  cases cid with
  | none =>
    rw [hrange]
    simp [matchesQuery, specMatches, truthy]
  | some c =>
    have ht : truthy (some c) = true := by rw [hc]; rfl
    rw [hrange, ht]
    simp [matchesQuery, specMatches]

/-- Closed form of a getOverview call: the totals of the group of
matching records, next to the unchanged store. -/
lemma getOverview_run (params : OverviewParams) (s : Store) :
    getOverview params s =
      (Except.ok (groupTotals (s.records.filter (matchesQuery
        ⟨if truthy params.companyId then params.companyId else none, none,
          rangeOf params.start params.stop⟩))), s) := by
  unfold getOverview dbFind
  by_cases h : (s.records.filter (matchesQuery
      ⟨if truthy params.companyId then params.companyId else none, none,
        rangeOf params.start params.stop⟩)).isEmpty
  · rw [List.isEmpty_iff] at h
    simp [h, groupTotals]
  · simp [h]

/-- A small concrete store used to evaluate the theorems on concrete
inputs: seven records of one campaign, with the click and cost pattern
of the spec example. -/
def demoStore : Store :=
  { records :=
      [⟨"c1", some ("co1"), 1, "Facebook", 100, 1, 1, 2⟩,
       ⟨"c1", some ("co1"), 2, "GoogleAds", 200, 2, 1, 2⟩,
       ⟨"c1", some ("co1"), 3, "Facebook", 300, 0, 0, 2⟩,
       ⟨"c1", some ("co1"), 4, "Facebook", 100, 1, 0, 2⟩,
       ⟨"c1", some ("co1"), 5, "GoogleAds", 100, 1, 0, 2⟩,
       ⟨"c1", some ("co1"), 6, "Facebook", 100, 1, 0, 2⟩,
       ⟨"c1", some ("co1"), 7, "Facebook", 100, 1, 0, 2⟩]
    integrations := [⟨"co1", "GoogleAds"⟩] }

/-- C1: for every record set and every filter of optional company and
optional date range, getOverview returns totals in which each of
impressions, clicks, conversions and cost is the arithmetic sum of
that field over exactly the records whose company matches the given
company when one is given and whose date lies in the inclusive range
when one is given; with zero matching records every total is 0 and no
error is raised. -/
theorem getOverview_totals_correct (s : Store) (cid : Option String)
    (range : Option (Int × Int)) (hc : truthy cid = cid.isSome) :
    (getOverview ⟨cid, range.map Prod.fst, range.map Prod.snd⟩ s).1 =
      Except.ok
        ⟨((s.records.filter (specMatches cid range)).map AnalyticsRecord.impressions).sum,
         ((s.records.filter (specMatches cid range)).map AnalyticsRecord.clicks).sum,
         ((s.records.filter (specMatches cid range)).map AnalyticsRecord.conversions).sum,
         ((s.records.filter (specMatches cid range)).map AnalyticsRecord.cost).sum⟩
    ∧ (s.records.filter (specMatches cid range) = [] →
        (getOverview ⟨cid, range.map Prod.fst, range.map Prod.snd⟩ s).1 =
          Except.ok ⟨0, 0, 0, 0⟩) := by
  have hq : s.records.filter (matchesQuery
      ⟨if truthy cid then cid else none, none,
        rangeOf (range.map Prod.fst) (range.map Prod.snd)⟩) =
      s.records.filter (specMatches cid range) :=
    List.filter_congr fun r _ => overviewQuery_matches cid range hc r
  constructor
  · rw [getOverview_run]
    simp only []
    rw [hq, groupTotals_eq]
  · intro h
    rw [getOverview_run]
    simp only []
    rw [hq, h]
    rfl

/-- C1 witness: evaluating the overview on the concrete store with a
company filter matching no record yields all-zero totals. -/
theorem getOverview_totals_correct_witness :
    truthy (some ("acme")) = (some ("acme")).isSome ∧
    (getOverview ⟨some ("acme"), some 1, some 5⟩ demoStore).1 =
      Except.ok ⟨0, 0, 0, 0⟩ := by
  refine ⟨rfl, ?_⟩
  exact (getOverview_totals_correct demoStore (some ("acme")) (some (1, 5)) rfl).2
    (by decide)

/-- C10: in getOverview, getCampaignAnalytics and getChannelAnalytics
the date filter is applied only when both bounds are provided; with
exactly one bound given, the call returns exactly what it returns with
no date restriction at all. -/
theorem date_filter_requires_both_bounds (s : Store) (cid cmp c : Option String)
    (x : Int) :
    (getOverview ⟨cid, some x, none⟩ s = getOverview ⟨cid, none, none⟩ s
      ∧ getOverview ⟨cid, none, some x⟩ s = getOverview ⟨cid, none, none⟩ s)
    ∧ (getCampaignAnalytics ⟨c, some x, none⟩ s = getCampaignAnalytics ⟨c, none, none⟩ s
      ∧ getCampaignAnalytics ⟨c, none, some x⟩ s = getCampaignAnalytics ⟨c, none, none⟩ s)
    ∧ (getChannelAnalytics ⟨cid, cmp, some x, none⟩ s
        = getChannelAnalytics ⟨cid, cmp, none, none⟩ s
      ∧ getChannelAnalytics ⟨cid, cmp, none, some x⟩ s
        = getChannelAnalytics ⟨cid, cmp, none, none⟩ s) :=
  ⟨⟨rfl, rfl⟩, ⟨rfl, rfl⟩, ⟨rfl, rfl⟩⟩

/-- C9: none of the four aggregation functions creates, updates or
deletes an analytics record; each returns the store it was given. -/
theorem aggregation_read_only (s : Store) (p₁ : OverviewParams)
    (p₂ : CampaignParams) (p₃ : ChannelParams) (c : Option String) :
    (getOverview p₁ s).2 = s ∧ (getCampaignAnalytics p₂ s).2 = s
    ∧ (getChannelAnalytics p₃ s).2 = s ∧ (getRecommendations c s).2 = s := by
  refine ⟨?_, ?_, ?_, ?_⟩
  · rw [getOverview_run]
  · unfold getCampaignAnalytics dbFind
    split <;> rfl
  · rfl
  · simp only [getRecommendations, dbFind]
    split
    · rfl
    · split
      · rfl
      · split <;> rfl

/-- C4: getCampaignAnalytics with an absent or empty campaign
identifier returns null (none) rather than an error, while the sibling
getIntegrations throws on an absent or empty company identifier. -/
theorem missing_campaign_id_yields_null (s : Store) (a b : Option Int) :
    (getCampaignAnalytics ⟨none, a, b⟩ s).1 = Except.ok none
    ∧ (getCampaignAnalytics ⟨some (""), a, b⟩ s).1 = Except.ok none
    ∧ (getIntegrations none s).1 = Except.error integrationsErrMsg
    ∧ (getIntegrations (some ("")) s).1 = Except.error integrationsErrMsg := by
  exact ⟨rfl, rfl, rfl, rfl⟩

/-- C5: getRecommendations with an absent or empty campaign identifier
returns exactly the two fixed generic strings, for every state of the
store; both strings are members and the list has length two, so an
order-independent content match holds. -/
theorem generic_recommendations (s : Store) :
    (getRecommendations none s).1 = Except.ok [genericRec1, genericRec2]
    ∧ (getRecommendations (some ("")) s).1 = Except.ok [genericRec1, genericRec2]
    ∧ ([genericRec1, genericRec2].length = 2
        ∧ genericRec1 ∈ [genericRec1, genericRec2]
        ∧ genericRec2 ∈ [genericRec1, genericRec2]) := by
  exact ⟨rfl, rfl, rfl, by simp, by simp⟩

/-- The query getRecommendations and the campaign filter of the claims
agree on every record. -/
lemma campaignQuery_matches (c : String) (r : AnalyticsRecord) :
    matchesQuery ⟨none, some c, none⟩ r = (r.campaignId == c) := by
  simp [matchesQuery]

/-- C6: getRecommendations with a nonempty campaign identifier for
which no analytics record exists returns the single fixed no-data
string. -/
theorem no_data_recommendation (s : Store) (c : String) (h1 : c ≠ "")
    (h2 : s.records.filter (fun r => r.campaignId == c) = []) :
    (getRecommendations (some c) s).1 = Except.ok [noDataRec] := by
  have ht : truthy (some c) = true := by
    simp [truthy]
    cases h : c.isEmpty with
    | false => rfl
    | true => exact absurd ((String.isEmpty_iff c).mp h) h1
  have hq : s.records.filter (matchesQuery ⟨none, some c, none⟩) = [] := by
    rw [List.filter_congr fun r _ => campaignQuery_matches c r, h2]
  unfold getRecommendations dbFind
  rw [ht]
  simp [hq]

/-- C6 witness: the demo store holds no record of campaign c9. -/
theorem no_data_recommendation_witness :
    ("c9" : String) ≠ "" ∧
    (getRecommendations (some ("c9")) demoStore).1 = Except.ok [noDataRec] :=
  ⟨by decide, no_data_recommendation demoStore ("c9") (by decide) (by decide)⟩

/-- A nonempty string parameter is truthy. -/
lemma truthy_of_ne (c : String) (h : c ≠ "") : truthy (some c) = true := by
  simp [truthy]
  cases hc : c.isEmpty with
  | false => rfl
  | true => exact absurd ((String.isEmpty_iff c).mp hc) h

/-- The query getCampaignAnalytics builds for a campaign identifier
and two optional bounds agrees with the claim-side filter on every
record. -/
lemma campaignSeriesQuery_matches (c : String) (a b : Option Int)
    (r : AnalyticsRecord) :
    matchesQuery ⟨none, some c, rangeOf a b⟩ r
      = (r.campaignId == c && inRange a b r.date) := by
  cases a <;> cases b <;> simp [matchesQuery, rangeOf, inRange]

/-- C7: for every nonempty campaign identifier, getCampaignAnalytics
returns exactly the records of that campaign, restricted to the date
range when both bounds are given, as a permutation of the matching
records of the store (fields unmodified, no aggregation) sorted
ascending by date. -/
theorem campaign_series_sorted (s : Store) (c : String) (a b : Option Int)
    (h : c ≠ "") :
    ∃ l, (getCampaignAnalytics ⟨some c, a, b⟩ s).1 = Except.ok (some l)
      ∧ l.Perm (s.records.filter fun r => r.campaignId == c && inRange a b r.date)
      ∧ List.Sorted dateLe l := by
  have ht := truthy_of_ne c h
  have key : (getCampaignAnalytics ⟨some c, a, b⟩ s).1 =
      Except.ok (some (List.insertionSort dateLe
        (s.records.filter (matchesQuery ⟨none, some c, rangeOf a b⟩)))) := by
    simp only [getCampaignAnalytics, dbFind, ht, Bool.not_true]
    rfl
  have hq : s.records.filter (matchesQuery ⟨none, some c, rangeOf a b⟩) =
      s.records.filter fun r => r.campaignId == c && inRange a b r.date :=
    List.filter_congr fun r _ => campaignSeriesQuery_matches c a b r
  refine ⟨_, key, ?_, ?_⟩
  · rw [hq]
    exact List.perm_insertionSort dateLe _
  · exact List.sorted_insertionSort dateLe _

/-- C7 witness: the campaign series of the demo store for campaign c1
within dates 2 to 6. -/
theorem campaign_series_sorted_witness :
    ("c1" : String) ≠ "" ∧
    ∃ l, (getCampaignAnalytics ⟨some ("c1"), some 2, some 6⟩ demoStore).1 =
        Except.ok (some l)
      ∧ l.Perm (demoStore.records.filter fun r =>
          r.campaignId == ("c1") && inRange (some 2) (some 6) r.date)
      ∧ List.Sorted dateLe l :=
  ⟨by decide, campaign_series_sorted demoStore ("c1") (some 2) (some 6) (by decide)⟩

/-- C8: every error response of the analytics controllers carries
success false and a message; status 500 occurs exactly when the
awaited service call threw, and the campaign endpoint answers 404
exactly when the service returned a falsy (null) result. -/
theorem analytics_error_responses (campaignId e : String)
    (o₁ : Except String Totals)
    (o₂ : Except String (Option (List AnalyticsRecord)))
    (o₃ : Except String (List ChannelRow))
    (o₄ : Except String (List String)) :
    ctrlGetOverview (Except.error e) = ⟨500, false, none, some overviewFailMsg⟩
    ∧ ctrlGetCampaignAnalytics campaignId (Except.error e) =
        ⟨500, false, none, some campaignFailMsg⟩
    ∧ ctrlGetCampaignAnalytics campaignId (Except.ok none) =
        ⟨404, false, none, some (campaignNotFoundMsg campaignId)⟩
    ∧ ctrlGetChannelAnalytics (Except.error e) = ⟨500, false, none, some channelFailMsg⟩
    ∧ ctrlGetRecommendations (Except.error e) = ⟨500, false, none, some recsFailMsg⟩
    ∧ ((ctrlGetOverview o₁).status = 500 ↔ ∃ m, o₁ = Except.error m)
    ∧ ((ctrlGetCampaignAnalytics campaignId o₂).status = 500 ↔
        ∃ m, o₂ = Except.error m)
    ∧ ((ctrlGetCampaignAnalytics campaignId o₂).status = 404 ↔ o₂ = Except.ok none)
    ∧ ((ctrlGetChannelAnalytics o₃).status = 500 ↔ ∃ m, o₃ = Except.error m)
    ∧ ((ctrlGetRecommendations o₄).status = 500 ↔ ∃ m, o₄ = Except.error m) := by
  refine ⟨rfl, rfl, rfl, rfl, rfl, ?_, ?_, ?_, ?_, ?_⟩
  · cases o₁ <;> simp [ctrlGetOverview]
  · cases o₂ with
    | error m => simp [ctrlGetCampaignAnalytics]
    | ok v => cases v <;> simp [ctrlGetCampaignAnalytics]
  · cases o₂ with
    | error m => simp [ctrlGetCampaignAnalytics]
    | ok v => cases v <;> simp [ctrlGetCampaignAnalytics]
  · cases o₃ <;> simp [ctrlGetChannelAnalytics]
  · cases o₄ <;> simp [ctrlGetRecommendations]

/-- The records of one campaign, written from the claim wording. -/
def campaignRecords (s : Store) (c : String) : List AnalyticsRecord :=
  s.records.filter fun r => r.campaignId == c

/-- The at most 7 most recent records of one campaign, ordered
descending by date, written from the claim wording. -/
def recentSeven (s : Store) (c : String) : List AnalyticsRecord :=
  (List.insertionSort dateGe (campaignRecords s c)).take 7

/-- The unweighted mean over the recent records of per-record cost
divided by clicks floored to 1, written from the claim wording. -/
def specAvgCPC (s : Store) (c : String) : Rat :=
  ((recentSeven s c).map fun r => r.cost / ((max r.clicks 1 : Nat) : Rat)).sum /
    ((recentSeven s c).length : Rat)

/-- The or-with-1 idiom of the source equals flooring clicks to 1. -/
lemma perRecordCPC_eq (r : AnalyticsRecord) :
    perRecordCPC r = r.cost / ((max r.clicks 1 : Nat) : Rat) := by
  unfold perRecordCPC
  cases h : r.clicks with
  | zero => simp [h]
  | succ n =>
    have hm : max (n + 1) 1 = n + 1 := Nat.max_eq_left (Nat.succ_le_succ (Nat.zero_le n))
    simp [hm]

/-- Folding addition of a mapped value over a list from a starting
value adds the sum of the mapped values. -/
lemma foldl_add_eq {α M : Type} [AddCommMonoid M] (f : α → M) :
    ∀ (l : List α) (a : M),
      l.foldl (fun acc x => acc + f x) a = a + (l.map f).sum := by
  intro l
  induction l with
  | nil => intro a; simp
  | cons x xs ih =>
    intro a
    rw [List.foldl_cons, ih, List.map_cons, List.sum_cons, add_assoc]

/-- C3: for every campaign with at least one record, getRecommendations
inspects the n most recent records of the campaign, 1 ≤ n ≤ 7, ordered
descending by date, computes the unweighted mean of cost over
max(clicks, 1) per record, and returns the single high-CPC string
exactly when that mean strictly exceeds 2; at a mean of exactly 2 the
performing-well string is returned. -/
theorem recommendations_cpc (s : Store) (c : String) (h1 : c ≠ "")
    (h2 : campaignRecords s c ≠ []) :
    1 ≤ (recentSeven s c).length ∧ (recentSeven s c).length ≤ 7
    ∧ List.Sorted dateGe (recentSeven s c)
    ∧ (∀ r ∈ recentSeven s c, r ∈ campaignRecords s c)
    ∧ (getRecommendations (some c) s).1 =
        Except.ok [if 2 < specAvgCPC s c then highCpcMsg c (specAvgCPC s c)
                   else goodCpcMsg c (specAvgCPC s c)] := by
  have ht := truthy_of_ne c h1
  have hlen : (recentSeven s c).length = min 7 (campaignRecords s c).length := by
    rw [recentSeven, List.length_take,
      (List.perm_insertionSort dateGe (campaignRecords s c)).length_eq]
  have hpos : 0 < (campaignRecords s c).length := List.length_pos.mpr h2
  have h1len : 1 ≤ (recentSeven s c).length := by
    rw [hlen]
    exact le_min (by norm_num) hpos
  have h7len : (recentSeven s c).length ≤ 7 := by
    rw [hlen]
    exact min_le_left _ _
  have hne : recentSeven s c ≠ [] := by
    intro hE
    rw [hE] at h1len
    simp at h1len
  have hEmptyF : (recentSeven s c).isEmpty = false := by
    rw [Bool.eq_false_iff]
    intro hE
    exact hne (List.isEmpty_iff.mp hE)
  refine ⟨h1len, h7len, ?_, ?_, ?_⟩
  · exact List.Pairwise.sublist (List.take_sublist 7 _)
      (List.sorted_insertionSort dateGe (campaignRecords s c))
  · intro r hr
    exact (List.perm_insertionSort dateGe (campaignRecords s c)).mem_iff.mp
      (List.mem_of_mem_take hr)
  · have hq : List.filter (matchesQuery ⟨none, some c, none⟩) s.records =
        campaignRecords s c :=
      List.filter_congr fun r _ => campaignQuery_matches c r
    have havg : List.foldl (fun acc r => acc + perRecordCPC r) 0 (recentSeven s c) /
        ((recentSeven s c).length : Rat) = specAvgCPC s c := by
      rw [foldl_add_eq perRecordCPC (recentSeven s c) 0, zero_add, specAvgCPC]
      congr 2
      exact List.map_congr_left fun r _ => perRecordCPC_eq r
    simp only [getRecommendations, dbFind, ht, Bool.not_true, Bool.false_eq_true,
      if_false, hq]
    rw [show List.take 7 (List.insertionSort dateGe (campaignRecords s c)) =
        recentSeven s c from rfl]
    simp only [hEmptyF, Bool.false_eq_true, if_false, Option.getD_some, havg]
    by_cases hlt : 2 < specAvgCPC s c <;> simp [hlt]

/-- C3 witness: the demo store carries the click and cost pattern of
the spec example for campaign c1; its mean CPC is 13 over 7, which
does not exceed 2, so the performing-well branch applies. -/
theorem recommendations_cpc_witness :
    ("c1" : String) ≠ "" ∧ campaignRecords demoStore ("c1") ≠ []
    ∧ 1 ≤ (recentSeven demoStore ("c1")).length
    ∧ (recentSeven demoStore ("c1")).length ≤ 7
    ∧ (getRecommendations (some ("c1")) demoStore).1 =
        Except.ok [if 2 < specAvgCPC demoStore ("c1")
                   then highCpcMsg ("c1") (specAvgCPC demoStore ("c1"))
                   else goodCpcMsg ("c1") (specAvgCPC demoStore ("c1"))] := by
  have h := recommendations_cpc demoStore ("c1") (by decide) (by decide)
  exact ⟨by decide, by decide, h.1, h.2.1, h.2.2.2.2⟩

/-- A channel row lists its channel next to the four field sums of its
group. -/
lemma channelRowOf_fields (c : String) (rs : List AnalyticsRecord) :
    channelRowOf c rs =
      ⟨c, (rs.map AnalyticsRecord.impressions).sum,
       (rs.map AnalyticsRecord.clicks).sum,
       (rs.map AnalyticsRecord.conversions).sum,
       (rs.map AnalyticsRecord.cost).sum⟩ := by
  simp [channelRowOf, groupTotals_eq]

/-- Summing one projected field over the channel rows of a filtered
set gives the sum of the corresponding record field over the whole
filtered set. -/
lemma rows_field_sum {M : Type} [AddCommMonoid M] (F : List AnalyticsRecord)
    (f : ChannelRow → M) (g : AnalyticsRecord → M)
    (hfg : ∀ ch rs, f (channelRowOf ch rs) = (rs.map g).sum) :
    ((((F.map AnalyticsRecord.channel).dedup).map
        fun ch => channelRowOf ch (F.filter fun r => r.channel == ch)).map f).sum
      = (F.map g).sum := by
  rw [List.map_map]
  have hmap : ((F.map AnalyticsRecord.channel).dedup).map
      (f ∘ fun ch => channelRowOf ch (F.filter fun r => r.channel == ch)) =
      ((F.map AnalyticsRecord.channel).dedup).map
        fun ch => ((F.filter fun r => r.channel == ch).map g).sum :=
    List.map_congr_left fun ch _ => hfg ch _
  rw [hmap]
  exact sum_fiberwise AnalyticsRecord.channel g ((F.map AnalyticsRecord.channel).dedup)
    F (List.nodup_dedup _) fun x hx => List.mem_dedup.mpr (List.mem_map_of_mem _ hx)

/-- C2: with no campaign filter, every row of the channel breakdown
carries a channel that occurs in the filtered record set, and for each
of the four metric fields the sum over all breakdown rows equals the
overview total under the same filter. -/
theorem channel_breakdown_consistent (s : Store) (cid : Option String)
    (range : Option (Int × Int)) (hc : truthy cid = cid.isSome) :
    ∃ rows t,
      (getChannelAnalytics ⟨cid, none, range.map Prod.fst, range.map Prod.snd⟩ s).1 =
        Except.ok rows
      ∧ (getOverview ⟨cid, range.map Prod.fst, range.map Prod.snd⟩ s).1 = Except.ok t
      ∧ (∀ row ∈ rows, ∃ r ∈ s.records.filter (specMatches cid range),
          r.channel = row.channel)
      ∧ (rows.map ChannelRow.impressions).sum = t.impressions
      ∧ (rows.map ChannelRow.clicks).sum = t.clicks
      ∧ (rows.map ChannelRow.conversions).sum = t.conversions
      ∧ (rows.map ChannelRow.cost).sum = t.cost := by
  have hq : s.records.filter (matchesQuery
      ⟨if truthy cid then cid else none, none,
        rangeOf (range.map Prod.fst) (range.map Prod.snd)⟩) =
      s.records.filter (specMatches cid range) :=
    List.filter_congr fun r _ => overviewQuery_matches cid range hc r
  refine ⟨(((s.records.filter (specMatches cid range)).map
      AnalyticsRecord.channel).dedup).map
        fun ch => channelRowOf ch ((s.records.filter (specMatches cid range)).filter
          fun r => r.channel == ch),
    ⟨((s.records.filter (specMatches cid range)).map AnalyticsRecord.impressions).sum,
     ((s.records.filter (specMatches cid range)).map AnalyticsRecord.clicks).sum,
     ((s.records.filter (specMatches cid range)).map AnalyticsRecord.conversions).sum,
     ((s.records.filter (specMatches cid range)).map AnalyticsRecord.cost).sum⟩,
    ?_, ?_, ?_, ?_, ?_, ?_, ?_⟩
  · simp only [getChannelAnalytics, dbFind]
    rw [show (if truthy (none : Option String) = true
        then (none : Option String) else none) = none from rfl, hq]
  · rw [getOverview_run]
    simp only []
    rw [hq, groupTotals_eq]
  · intro row hrow
    obtain ⟨ch, hch, hrow⟩ := List.mem_map.mp hrow
    obtain ⟨r, hr, hrc⟩ := List.mem_map.mp (List.mem_dedup.mp hch)
    refine ⟨r, hr, ?_⟩
    rw [← hrow, channelRowOf_fields, hrc]
  · exact rows_field_sum _ ChannelRow.impressions AnalyticsRecord.impressions
      fun ch rs => by rw [channelRowOf_fields]
  · exact rows_field_sum _ ChannelRow.clicks AnalyticsRecord.clicks
      fun ch rs => by rw [channelRowOf_fields]
  · exact rows_field_sum _ ChannelRow.conversions AnalyticsRecord.conversions
      fun ch rs => by rw [channelRowOf_fields]
  · exact rows_field_sum _ ChannelRow.cost AnalyticsRecord.cost
      fun ch rs => by rw [channelRowOf_fields]

/-- C2 witness: the channel breakdown and the overview of the demo
store under its company filter. -/
theorem channel_breakdown_consistent_witness :
    truthy (some ("co1")) = (some ("co1")).isSome ∧
    ∃ rows t,
      (getChannelAnalytics ⟨some ("co1"), none, none, none⟩ demoStore).1 =
        Except.ok rows
      ∧ (getOverview ⟨some ("co1"), none, none⟩ demoStore).1 = Except.ok t
      ∧ (∀ row ∈ rows, ∃ r ∈ demoStore.records.filter (specMatches (some ("co1")) none),
          r.channel = row.channel)
      ∧ (rows.map ChannelRow.impressions).sum = t.impressions
      ∧ (rows.map ChannelRow.clicks).sum = t.clicks
      ∧ (rows.map ChannelRow.conversions).sum = t.conversions
      ∧ (rows.map ChannelRow.cost).sum = t.cost :=
  ⟨rfl, channel_breakdown_consistent demoStore (some ("co1")) none rfl⟩

end AutoMarketing
